import Mathlib

/-!
Verification development for the app-discovery and debug-instance core
(`src/main/utils.ts`): the icns icon extractor `readIcnsAsImageUri`, the
platform metadata reader `getAppInfo`, the discovery routine
`getElectronApps`, and the stream/lifecycle handlers installed by
`startDebugging`.  Buffers are modelled as `List Nat` of byte values,
strings as Lean `String`, the filesystem and the external state container
as explicit parameters, and the unbounded `while` loop of the entry parser
through a fuel argument (`none` = the loop has not finished within the
given fuel; every claim about termination quantifies over fuel).
-/

set_option maxHeartbeats 1000000

/-- Errors that the modelled code can raise (promise rejections): the
`ERR_OUT_OF_RANGE` of `Buffer.readInt32BE`, the `TypeError` raised by
`icons[0].data` when the entry list is empty (the condition the spec names
`NoIconEntries` / `NoIconFound`), a failed `fs.promises.readFile` (or a
`plist.parse` failure), and the explicit `platform not supported` throw of
`getAppInfo`. -/
inductive JsError where
  | rangeError
  | noIconEntries
  | fileError
  | unsupportedPlatform (platform : String)
deriving DecidableEq

/-- Big-endian unsigned read of four bytes, with absent positions read as 0
(theorems only ever use it through `readInt32BE?`, which range-checks first,
so the default is never observable). -/
def bytesToNatBE (l : List Nat) (off : Nat) : Nat :=
  l.getD off 0 * 16777216 + l.getD (off + 1) 0 * 65536 +
    l.getD (off + 2) 0 * 256 + l.getD (off + 3) 0

/-- Model of `Buffer.readInt32BE(off)`: a signed 32-bit big-endian read;
`none` models the `ERR_OUT_OF_RANGE` throw when the four bytes are not
entirely inside the buffer. -/
def readInt32BE? (l : List Nat) (off : Int) : Option Int :=
  if 0 ≤ off ∧ off + 4 ≤ (l.length : Int) then
    some (let u := bytesToNatBE l off.toNat
          if u < 2147483648 then (u : Int) else (u : Int) - 4294967296)
  else none

/-- Model of `Buffer.prototype.slice` index normalisation: a negative index
counts from the end, and indices clamp to `[0, len]`. -/
def jsIndex (len : Nat) (i : Int) : Nat :=
  if i < 0 then ((len : Int) + i).toNat else min i.toNat len

/-- Model of `buf.slice(a, b)`: the bytes in `[jsIndex a, jsIndex b)`. -/
def jsSlice (l : List Nat) (a b : Int) : List Nat :=
  (l.take (jsIndex l.length b)).drop (jsIndex l.length a)

/-- One parsed icon-container entry (`{ type, size, data }` pushed by the
loop of `readIcnsAsImageUri`); `type` keeps the raw tag bytes, `size` is the
declared 4-byte big-endian length, `data` the payload slice. -/
structure IcnsEntry where
  type : List Nat
  size : Int
  data : List Nat
deriving DecidableEq

/-- The `while (start < totalSize)` entry loop of `readIcnsAsImageUri`,
operating on the post-header buffer `body`.  `fuel` bounds the number of
iterations: `none` means the loop did not finish within `fuel` steps, so
non-termination of the source loop is `(forall fuel, result = none)`.
A failing `readInt32BE` surfaces as `some (.error .rangeError)`. -/
def parseIconsLoop (body : List Nat) (totalSize : Int) :
    Nat → Int → Option (Except JsError (List IcnsEntry))
  | 0, start => if start < totalSize then none else some (.ok [])
  | fuel + 1, start =>
    if start < totalSize then
      match readInt32BE? body (start + 4) with
      | none => some (.error .rangeError)
      | some size =>
        match parseIconsLoop body totalSize fuel (start + size) with
        | none => none
        | some (.error e) => some (.error e)
        | some (.ok rest) =>
          some (.ok (IcnsEntry.mk (jsSlice body start (start + 4)) size
            (jsSlice body (start + 8) (start + size)) :: rest))
    else some (.ok [])

/-- Header handling of `readIcnsAsImageUri`: `totalSize = readInt32BE(4) - 8`
and `buf = buf.slice(8)`, then the entry loop from offset 0. -/
def parseIcns (buf : List Nat) (fuel : Nat) :
    Option (Except JsError (List IcnsEntry)) :=
  match readInt32BE? buf 4 with
  | none => some (.error .rangeError)
  | some n => parseIconsLoop (buf.drop 8) (n - 8) fuel 0

/-- The offsets the entry loop visits when started (as in the source) at
offset 0: offset 0 itself, and from each visited offset below the declared
total, the offset advanced by the declared length read there.  The parsed
entries are exactly the reads performed at visited offsets below the
total, so a hypothesis over visited offsets is a hypothesis over the
parsed entries' declared length fields. -/
inductive ReachesOffset (body : List Nat) (totalSize : Int) : Int → Prop where
  | origin : ReachesOffset body totalSize 0
  | step (s sz : Int) : ReachesOffset body totalSize s → s < totalSize →
      readInt32BE? body (s + 4) = some sz →
      ReachesOffset body totalSize (s + sz)

/-- The post-header body of the 44-byte scenario container: one entry of
declared length 36; the four bytes at the unreached offset 18 happen to
read as 0. -/
def icnsScenarioBody : List Nat :=
  [105, 99, 48, 56, 0, 0, 0, 36, 137, 80, 78, 71, 13, 10, 26, 10,
   0, 0, 0, 0, 0, 0, 0, 0, 0, 0, 0, 0, 0, 0, 0, 0, 0, 0, 0, 0]

/-- Stable insertion (descending by `size`) used to model the JavaScript
`icons.sort((a, b) => b.size - a.size)`: `Array.prototype.sort` is a stable
sort, and with this comparator it orders entries by descending `size`,
keeping ties in original order; a stable insertion sort produces exactly
that list. -/
def insertBySizeDesc (e : IcnsEntry) : List IcnsEntry → List IcnsEntry
  | [] => [e]
  | x :: xs => if x.size ≤ e.size then e :: x :: xs else x :: insertBySizeDesc e xs

/-- Model of `icons.sort((a, b) => b.size - a.size)` (stable, descending). -/
def sortBySizeDesc : List IcnsEntry → List IcnsEntry
  | [] => []
  | x :: xs => insertBySizeDesc x (sortBySizeDesc xs)

/-- Model of `icons[0]` after the sort: the selected entry, if any. -/
def selectIcon (icons : List IcnsEntry) : Option IcnsEntry :=
  (sortBySizeDesc icons).head?

/-- The UTF-8 bytes of the literal `PNG` compared against
`imageData.slice(1, 4).toString()`. -/
def pngBytes : List Nat := [80, 78, 71]

/-- The literal prefixed to the base64 payload in the PNG branch. -/
def pngDataUriHead : String := "data:image/png;base64,"

/-- The base64 alphabet of RFC 4648, as used by `Buffer.toString(base64)`. -/
def b64Alphabet : List Char :=
  ['A','B','C','D','E','F','G','H','I','J','K','L','M','N','O','P',
   'Q','R','S','T','U','V','W','X','Y','Z',
   'a','b','c','d','e','f','g','h','i','j','k','l','m','n','o','p',
   'q','r','s','t','u','v','w','x','y','z',
   '0','1','2','3','4','5','6','7','8','9','+','/']

/-- The base64 digit for a 6-bit value. -/
def b64Char (n : Nat) : Char := b64Alphabet.getD n 'A'

/-- The 6-bit value of a base64 digit, if it is one. -/
def b64Index (c : Char) : Option Nat := b64Alphabet.findIdx? (fun x => x = c)

/-- Standard base64 encoding (as produced by `Buffer.toString(base64)`) on a
byte list, producing the character list of the encoded string. -/
def base64EncodeList : List Nat → List Char
  | [] => []
  | [a] => [b64Char (a / 4), b64Char (a % 4 * 16), '=', '=']
  | [a, b] => [b64Char (a / 4), b64Char (a % 4 * 16 + b / 16),
               b64Char (b % 16 * 4), '=']
  | a :: b :: c :: rest =>
    b64Char (a / 4) :: b64Char (a % 4 * 16 + b / 16) ::
      b64Char (b % 16 * 4 + c / 64) :: b64Char (c % 64) :: base64EncodeList rest

/-- Model of `buf.toString(base64)`. -/
def base64Encode (bs : List Nat) : String := String.mk (base64EncodeList bs)

/-- Standard base64 decoding on a character list; `none` on malformed
input. -/
def base64DecodeList : List Char → Option (List Nat)
  | [] => some []
  | c1 :: c2 :: c3 :: c4 :: rest =>
    match b64Index c1, b64Index c2 with
    | some n1, some n2 =>
      if c3 = '=' then
        if c4 = '=' ∧ rest = [] then some [n1 * 4 + n2 / 16] else none
      else
        match b64Index c3 with
        | some n3 =>
          if c4 = '=' then
            if rest = [] then some [n1 * 4 + n2 / 16, n2 % 16 * 16 + n3 / 4]
            else none
          else
            match b64Index c4 with
            | some n4 =>
              match base64DecodeList rest with
              | some bs =>
                some ((n1 * 4 + n2 / 16) :: (n2 % 16 * 16 + n3 / 4) ::
                  (n3 % 4 * 64 + n4) :: bs)
              | none => none
            | none => none
        | none => none
    | _, _ => none
  | _ => none

/-- Base64 decoding of a string. -/
def base64Decode (s : String) : Option (List Nat) := base64DecodeList s.data

/-- Model of `readIcnsAsImageUri` on the raw file bytes: parse the header
and entries, sort descending by declared size, take the first entry
(`icons[0]`; on an empty list the JavaScript code raises a `TypeError` at
`icons[0].data`, modelled as `.error .noIconEntries`), then return the PNG
data URI when bytes 1..3 of the payload decode to `PNG`, and the empty
string otherwise.  The comparison `imageData.slice(1, 4).toString() ===
PNG` is modelled as byte equality with `pngBytes`, since `[80, 78, 71]` is
the unique byte sequence whose UTF-8 decoding is the string `PNG`. -/
def readIcnsAsImageUri (buf : List Nat) (fuel : Nat) :
    Option (Except JsError String) :=
  match parseIcns buf fuel with
  | none => none
  | some (.error e) => some (.error e)
  | some (.ok icons) =>
    match selectIcon icons with
    | none => some (.error .noIconEntries)
    | some e0 =>
      if jsSlice e0.data 1 4 = pngBytes then
        some (.ok (pngDataUriHead ++ base64Encode e0.data))
      else some (.ok "")

/-- The four fields read out of `Contents/Info.plist`. -/
structure PlistInfo where
  CFBundleIdentifier : String
  CFBundleDisplayName : String
  CFBundleExecutable : String
  CFBundleIconFile : String
deriving DecidableEq

/-- The filesystem, modelled at the interfaces `utils.ts` consumes:
`readdir` (`none` models a rejected `fs.promises.readdir`, for example
`ENOTDIR` or `EPERM`), `pathExists` models `fs.existsSync`, `readPlist`
models reading and parsing `Contents/Info.plist` (the `plist` library is an
external collaborator, so the parsed fields are the interface; `none`
models a rejected read or a parse throw), and `readBytes` models
`fs.promises.readFile` of a binary file. -/
structure FSModel where
  readdir : String → Option (List String)
  pathExists : String → Bool
  readPlist : String → Option PlistInfo
  readBytes : String → Option (List Nat)

/-- Model of `path.join(a, b)` for a non-empty relative second component
(the only way the code uses it). -/
def pathJoin (a b : String) : String := a ++ "/" ++ b

/-- The descriptor produced by `getAppInfo` (`AppInfo` in `../types`). -/
structure AppInfoModel where
  id : String
  name : String
  icon : String
  appPath : String
  exePath : String
deriving DecidableEq

/-- Boolean test that `small` occurs at the start of `big`. -/
def startsWithChars : List Char → List Char → Bool
  | _, [] => true
  | [], _ :: _ => false
  | h :: hs, p :: ps => h = p && startsWithChars hs ps

/-- Boolean test that `pat` occurs contiguously anywhere in `hay`
(model of `String.prototype.includes`). -/
def listContainsSub : List Char → List Char → Bool
  | [], pat => startsWithChars [] pat
  | h :: t, pat => startsWithChars (h :: t) pat || listContainsSub t pat

/-- Boolean test that `suf` occurs at the end of `l`
(model of `String.prototype.endsWith`). -/
def endsWithChars (l suf : List Char) : Bool :=
  startsWithChars l.reverse suf.reverse

/-- The characters of the literal `.exe`. -/
def exeSuffixChars : List Char := ['.', 'e', 'x', 'e']

/-- Lower-cased characters of a string, modelling
`String.prototype.toLowerCase` on the ASCII names involved. -/
def lowerChars (s : String) : List Char := s.data.map Char.toLower

/-- Model of the exclusion test of the win32 branch of `getAppInfo`:
`[uninstall, update].some(keyword => file.toLowerCase().includes(keyword))`
(case-insensitive through the lower-casing of the file name). -/
def excludedKeyword (file : String) : Bool :=
  listContainsSub (lowerChars file) "uninstall".data ||
    listContainsSub (lowerChars file) "update".data

/-- The filter predicate of the win32 branch: the name ends with the
(case-sensitive) literal `.exe` and contains neither exclusion keyword. -/
def isExeCandidate (file : String) : Bool :=
  endsWithChars file.data exeSuffixChars && !excludedKeyword file

/-- Model of the win32 packaging-signature check of `getAppInfo`:
`resources/electron.asar` directly under the app path, or under one
immediate subdirectory. -/
def isElectronBasedWin (fs : FSModel) (appPath : String)
    (files : List String) : Bool :=
  fs.pathExists (pathJoin appPath "resources/electron.asar") ||
    files.any (fun dir =>
      fs.pathExists (pathJoin (pathJoin appPath dir) "resources/electron.asar"))

/-- The last path component of a name (model of the directory stripping of
`path.basename`; readdir results contain no separator). -/
def lastComponent (cs : List Char) : List Char :=
  (cs.reverse.takeWhile (fun c => !(c = '/'))).reverse

/-- Model of `path.basename(file, .exe)`: strip any directory part, then
strip a trailing `.exe` unless the whole base name is `.exe`. -/
def basenameExe (file : String) : String :=
  let base := lastComponent file.data
  if endsWithChars base exeSuffixChars = true ∧ base ≠ exeSuffixChars then
    String.mk (base.take (base.length - 4))
  else String.mk base

/-- Model of `readIcnsAsImageUri` from a file path: read the icon file
(`none` from `readBytes` models the rejected `readFile`, surfaced as
`fileError`), then run the extractor on its bytes. -/
def readIcnsAsImageUriFS (fs : FSModel) (file : String) (fuel : Nat) :
    Option (Except JsError String) :=
  match fs.readBytes file with
  | none => some (.error .fileError)
  | some buf => readIcnsAsImageUri buf fuel

/-- Model of `getAppInfo(appPath)`.  `platform` is `process.platform`;
`freshId` stands for the `v4()` uuid of the win32 branch; `fuel` bounds the
icon-extractor loop.  The outer `Option` is `none` when the icon extractor
diverges; `.error` models a rejected promise (the win32 branch catches its
`readdir` errors and returns `undefined`, modelled `.ok none`; the darwin
branch catches nothing, so a failing plist read or icon extraction
rejects); `.ok none` models a `return` with no value.  `path.resolve` on an
absolute `appPath` and a relative file name is `pathJoin`. -/
def getAppInfo (platform : String) (fs : FSModel) (appPath : String)
    (freshId : String) (fuel : Nat) :
    Option (Except JsError (Option AppInfoModel)) :=
  if platform = "win32" then
    match fs.readdir appPath with
    | none => some (.ok none)
    | some files =>
      if isElectronBasedWin fs appPath files = false then some (.ok none)
      else
        match (files.filter isExeCandidate).head? with
        | none => some (.ok none)
        | some exeFile =>
          some (.ok (some (AppInfoModel.mk freshId (basenameExe exeFile) ""
            appPath (pathJoin appPath exeFile))))
  else if platform = "darwin" then
    if fs.pathExists
        (pathJoin appPath "Contents/Frameworks/Electron Framework.framework")
        = false then some (.ok none)
    else
      match fs.readPlist (pathJoin appPath "Contents/Info.plist") with
      | none => some (.error .fileError)
      | some info =>
        match readIcnsAsImageUriFS fs
            (pathJoin (pathJoin (pathJoin appPath "Contents") "Resources")
              info.CFBundleIconFile) fuel with
        | none => none
        | some (.error e) => some (.error e)
        | some (.ok icon) =>
          some (.ok (some (AppInfoModel.mk info.CFBundleIdentifier
            info.CFBundleDisplayName icon appPath
            (pathJoin (pathJoin appPath "Contents/MacOS")
              info.CFBundleExecutable))))
  else some (.error (.unsupportedPlatform platform))

/-- Model of `readdirAbsolute`: list a directory and join each name onto
it; a rejected `readdir` is caught and contributes no candidates. -/
def readdirAbsolute (fs : FSModel) (dir : String) : List String :=
  match fs.readdir dir with
  | none => []
  | some names => names.map (fun f => pathJoin dir f)

/-- Model of `getPossibleAppPaths`: the three win32 roots (flattened in
order), the single darwin root, and the empty list on any other
platform. -/
def getPossibleAppPaths (platform : String) (fs : FSModel)
    (homedir : String) : List String :=
  if platform = "win32" then
    readdirAbsolute fs (homedir ++ "/AppData/Local") ++
      readdirAbsolute fs "c:/Program Files" ++
      readdirAbsolute fs "c:/Program Files (x86)"
  else if platform = "darwin" then readdirAbsolute fs "/Applications"
  else []

/-- The sequential `for` loop of `getElectronApps`: run `getAppInfo` on
each candidate, keep the descriptors, propagate a rejection, propagate
divergence of the icon extractor.  `idGen n` supplies the `v4()` value used
for the n-th candidate. -/
def getElectronAppsLoop (platform : String) (fs : FSModel)
    (idGen : Nat → String) (fuel : Nat) :
    List String → Nat → Option (Except JsError (List AppInfoModel))
  | [], _ => some (.ok [])
  | p :: rest, n =>
    match getAppInfo platform fs p (idGen n) fuel with
    | none => none
    | some (.error e) => some (.error e)
    | some (.ok none) => getElectronAppsLoop platform fs idGen fuel rest (n + 1)
    | some (.ok (some info)) =>
      match getElectronAppsLoop platform fs idGen fuel rest (n + 1) with
      | none => none
      | some (.error e) => some (.error e)
      | some (.ok infos) => some (.ok (info :: infos))

/-- Model of the JavaScript object update `a[b.id] = b`: replace the value
in place when the key is present, append otherwise. -/
def dictSet {α : Type} : List (String × α) → String → α → List (String × α)
  | [], k, v => [(k, v)]
  | (k1, v1) :: rest, k, v =>
    if k1 = k then (k, v) :: rest else (k1, v1) :: dictSet rest k v

/-- Model of `getElectronApps`: enumerate candidates, read each descriptor,
and reduce the results into an id-keyed dictionary. -/
def getElectronApps (platform : String) (fs : FSModel) (homedir : String)
    (idGen : Nat → String) (fuel : Nat) :
    Option (Except JsError (List (String × AppInfoModel))) :=
  match getElectronAppsLoop platform fs idGen fuel
      (getPossibleAppPaths platform fs homedir) 0 with
  | none => none
  | some (.error e) => some (.error e)
  | some (.ok infos) =>
    some (.ok (infos.foldl (fun d b => dictSet d b.id b) []))

/-- One registry entry of the external state container (the record behind
`store.getState().instanceInfo[id]`): the originating descriptor id, the
two at-most-once port fields (the code stores the captured digit string),
and the accumulated log text. -/
structure InstanceInfo where
  appId : String
  nodePort : Option String
  windowPort : Option String
  log : String
deriving DecidableEq

/-- The five operations the core dispatches to the state container. -/
inductive InstanceAction where
  | addInstance (id appId : String)
  | updateNodePort (id port : String)
  | updateWindowPort (id port : String)
  | updateLog (id chunk : String)
  | removeInstance (id : String)

/-- The registry: instance id to record, in insertion order. -/
abbrev InstanceState : Type := List (String × InstanceInfo)

/-- Model of `store.getState().instanceInfo[id]`. -/
def lookupInst : InstanceState → String → Option InstanceInfo
  | [], _ => none
  | (k, v) :: rest, id => if k = id then some v else lookupInst rest id

/-- Modelled from the spec: the reducers behind `addInstance`,
`updateNodePort`, `updateWindowPort`, `updateLog` and `removeInstance` live
in `../reducers/instance`, outside the given source; per the external
interface section, `addInstance` creates an entry with unset ports and an
empty log, the two port operations set the respective field, `updateLog`
appends the chunk, and `removeInstance` deletes the entry. -/
def applyAction (st : InstanceState) : InstanceAction → InstanceState
  | .addInstance id appId => dictSet st id (InstanceInfo.mk appId none none "")
  | .updateNodePort id port =>
    st.map (fun q => if q.1 = id then
      (q.1, InstanceInfo.mk q.2.appId (some port) q.2.windowPort q.2.log)
      else q)
  | .updateWindowPort id port =>
    st.map (fun q => if q.1 = id then
      (q.1, InstanceInfo.mk q.2.appId q.2.nodePort (some port) q.2.log)
      else q)
  | .updateLog id chunk =>
    st.map (fun q => if q.1 = id then
      (q.1, InstanceInfo.mk q.2.appId q.2.nodePort q.2.windowPort
        (q.2.log ++ chunk))
      else q)
  | .removeInstance id => st.filter (fun q => !(q.1 = id))

/-- One atom of the port-announcement patterns: a literal character, or
the `.` of the regular expression (which matches any character). -/
inductive RAtom where
  | lit (c : Char)
  | anyChar

/-- Match a list of atoms against the start of the input, returning the
remaining input on success. -/
def atomsMatch : List RAtom → List Char → Option (List Char)
  | [], cs => some cs
  | _ :: _, [] => none
  | .lit c :: as, x :: xs => if x = c then atomsMatch as xs else none
  | .anyChar :: as, _ :: xs => atomsMatch as xs

/-- Try the pattern `atoms (\d+) /` at the current position: after the
atoms there must be a non-empty (greedy) digit run followed by `/`; the
digit run is the capture. -/
def matchPortAt (atoms : List RAtom) (cs : List Char) : Option String :=
  match atomsMatch atoms cs with
  | none => none
  | some rest =>
    let ds := rest.takeWhile (fun c => c.isDigit)
    if ds = [] then none
    else
      match rest.dropWhile (fun c => c.isDigit) with
      | '/' :: _ => some (String.mk ds)
      | _ => none

/-- Model of `RegExp.prototype.exec` for the two port patterns: try the
match at each position from the left, returning the first capture. -/
def execPortRegex (atoms : List RAtom) : List Char → Option String
  | [] => matchPortAt atoms []
  | c :: cs =>
    match matchPortAt atoms (c :: cs) with
    | some s => some s
    | none => execPortRegex atoms cs

/-- The atoms shared by the two patterns after their distinct literal
heads: `127.0.0.1:` with the three unescaped dots matching any
character. -/
def hostAtoms : List RAtom :=
  [.lit '1', .lit '2', .lit '7', .anyChar, .lit '0', .anyChar, .lit '0',
   .anyChar, .lit '1', .lit ':']

/-- The literal atoms of a string. -/
def litAtoms (s : String) : List RAtom := s.data.map RAtom.lit

/-- The node-inspector pattern `Debugger listening on ws://127.0.0.1:(\d+)/`
(dots unescaped in the source). -/
def nodePortPattern : List RAtom :=
  litAtoms "Debugger listening on ws://" ++ hostAtoms

/-- The devtools pattern `DevTools listening on ws://127.0.0.1:(\d+)/`
(dots unescaped in the source). -/
def windowPortPattern : List RAtom :=
  litAtoms "DevTools listening on ws://" ++ hostAtoms

/-- Model of the `handleStdout(isError)` chunk callback of
`startDebugging`: read the instance snapshot once; if `nodePort` is unset
and the node pattern matches, dispatch `updateNodePort` with the capture;
likewise, against the same snapshot, for `windowPort`; finally dispatch
`updateLog` with the whole chunk.  When the instance is absent the
JavaScript callback raises a `TypeError` at `instance.nodePort` before any
dispatch, so the state is returned unchanged.  The `!instance.nodePort`
test is modelled as `Option.isNone`, faithful because ports are only ever
set to non-empty digit strings (never the falsy empty string). -/
def handleStdout (isError : Bool) (st : InstanceState) (id : String)
    (chunk : String) : InstanceState :=
  match lookupInst st id with
  | none => st
  | some inst =>
    let st1 := if inst.nodePort = none then
        match execPortRegex nodePortPattern chunk.data with
        | some port => applyAction st (.updateNodePort id port)
        | none => st
      else st
    let st2 := if inst.windowPort = none then
        match execPortRegex windowPortPattern chunk.data with
        | some port => applyAction st1 (.updateWindowPort id port)
        | none => st1
      else st1
    applyAction st2 (.updateLog id chunk)

/-- The child-process events `startDebugging` subscribes to. -/
inductive SpawnEvent where
  | stdoutData (chunk : String)
  | stderrData (chunk : String)
  | close (code : Int)
  | errorEvent

/-- Model of the listeners installed by `startDebugging`: both data
streams feed `handleStdout` (with the respective `isError` flag), `close`
dispatches `removeInstance`, and the `error` listener has an empty body
(the `TODO:` in the source), leaving the state untouched. -/
def handleSpawnEvent (st : InstanceState) (id : String) :
    SpawnEvent → InstanceState
  | .stdoutData chunk => handleStdout false st id chunk
  | .stderrData chunk => handleStdout true st id chunk
  | .close _ => applyAction st (.removeInstance id)
  | .errorEvent => st

/-- The registry mutation performed synchronously by `startDebugging`
before any process event: `addInstance(id, app.id)`. -/
def startDebugging (st : InstanceState) (id appId : String) : InstanceState :=
  applyAction st (.addInstance id appId)

theorem head_insertBySizeDesc (e x : IcnsEntry) (xs : List IcnsEntry) :
    (insertBySizeDesc e (x :: xs)).head? =
      some (if x.size ≤ e.size then e else x) := by
  by_cases h : x.size ≤ e.size <;> simp [insertBySizeDesc, h]

theorem selectIcon_first_max :
    ∀ icons : List IcnsEntry, icons ≠ [] →
    ∃ l1 e l2, icons = l1 ++ e :: l2 ∧ selectIcon icons = some e ∧
      (∀ x ∈ icons, x.size ≤ e.size) ∧ (∀ x ∈ l1, x.size < e.size) := by
  intro icons
  induction icons with
  | nil => intro h; exact absurd rfl h
  | cons x xs ih =>
    intro _
    cases xs with
    | nil =>
      refine ⟨[], x, [], rfl, rfl, ?_, by simp⟩
      intro z hz
      simp at hz
      simp [hz]
    | cons y ys =>
      obtain ⟨l1, m, l2, hdec, hsel, hmax, hfirst⟩ := ih (by simp)
      have hsel' : (sortBySizeDesc (y :: ys)).head? = some m := hsel
      cases hs : sortBySizeDesc (y :: ys) with
      | nil => rw [hs] at hsel'; cases hsel'
      | cons m0 t =>
        rw [hs] at hsel'
        have hm0 : m0 = m := by simpa using hsel'
        rw [hm0] at hs
        have hstep : selectIcon (x :: y :: ys) =
            some (if m.size ≤ x.size then x else m) := by
          show (sortBySizeDesc (x :: y :: ys)).head? = _
          have : sortBySizeDesc (x :: y :: ys) =
              insertBySizeDesc x (sortBySizeDesc (y :: ys)) := rfl
          rw [this, hs, head_insertBySizeDesc]
        by_cases hc : m.size ≤ x.size
        · refine ⟨[], x, y :: ys, rfl, ?_, ?_, by simp⟩
          · rw [hstep, if_pos hc]
          · intro z hz
            rcases List.mem_cons.mp hz with h1 | h1
            · simp [h1]
            · exact le_trans (hmax z h1) hc
        · have hlt : x.size < m.size := lt_of_not_le hc
          refine ⟨x :: l1, m, l2, by simp [hdec], ?_, ?_, ?_⟩
          · rw [hstep, if_neg hc]
          · intro z hz
            rcases List.mem_cons.mp hz with h1 | h1
            · rw [h1]; exact le_of_lt hlt
            · exact hmax z h1
          · intro z hz
            rcases List.mem_cons.mp hz with h1 | h1
            · rw [h1]; exact hlt
            · exact hfirst z h1

/-- C1: for every icon-container input whose parsed entry list is
non-empty, the selection step of `readIcnsAsImageUri` (stable sort by
descending declared length, then `icons[0]`) picks an entry of maximum
declared length, and every entry strictly before it in file order has
strictly smaller declared length (ties break to the first in file
order). -/
theorem icns_selects_first_largest :
    ∀ (buf : List Nat) (fuel : Nat) (icons : List IcnsEntry),
      parseIcns buf fuel = some (.ok icons) → icons ≠ [] →
      ∃ l1 e l2, icons = l1 ++ e :: l2 ∧ selectIcon icons = some e ∧
        (∀ x ∈ icons, x.size ≤ e.size) ∧ (∀ x ∈ l1, x.size < e.size) :=
  fun _ _ icons _ h => selectIcon_first_max icons h

/-- Witness for C1 on a concrete two-entry container whose entries tie at
declared length 9: the first entry is selected. -/
theorem icns_selects_first_largest_witness :
    parseIcns [105, 99, 110, 115, 0, 0, 0, 26, 1, 2, 3, 4, 0, 0, 0, 9, 55,
        5, 6, 7, 8, 0, 0, 0, 9, 66] 2 =
      some (.ok [IcnsEntry.mk [1, 2, 3, 4] 9 [55],
        IcnsEntry.mk [5, 6, 7, 8] 9 [66]]) ∧
    ∃ l1 e l2,
      ([IcnsEntry.mk [1, 2, 3, 4] 9 [55], IcnsEntry.mk [5, 6, 7, 8] 9 [66]]
        : List IcnsEntry) = l1 ++ e :: l2 ∧
      selectIcon [IcnsEntry.mk [1, 2, 3, 4] 9 [55],
        IcnsEntry.mk [5, 6, 7, 8] 9 [66]] = some e ∧
      (∀ x ∈ [IcnsEntry.mk [1, 2, 3, 4] 9 [55],
        IcnsEntry.mk [5, 6, 7, 8] 9 [66]], x.size ≤ e.size) ∧
      (∀ x ∈ l1, x.size < e.size) :=
  ⟨rfl,
   icns_selects_first_largest
     [105, 99, 110, 115, 0, 0, 0, 26, 1, 2, 3, 4, 0, 0, 0, 9, 55,
       5, 6, 7, 8, 0, 0, 0, 9, 66] 2 _ rfl (by simp)⟩

theorem parse_loop_fuel_bound (body : List Nat) (totalSize : Int)
    (h : ∀ s sz : Int, ReachesOffset body totalSize s → s < totalSize →
      readInt32BE? body (s + 4) = some sz → 1 ≤ sz) :
    ∀ (fuel : Nat) (start : Int), ReachesOffset body totalSize start →
      0 ≤ start → (totalSize - start).toNat ≤ fuel →
      parseIconsLoop body totalSize fuel start ≠ none := by
  intro fuel
  induction fuel with
  | zero =>
    intro start hreach h0 hle
    have hns : ¬ start < totalSize := by omega
    simp [parseIconsLoop, hns]
  | succ n ih =>
    intro start hreach h0 hle
    by_cases hlt : start < totalSize
    · simp only [parseIconsLoop, if_pos hlt]
      cases hr : readInt32BE? body (start + 4) with
      | none => simp
      | some sz =>
        have hsz := h start sz hreach hlt hr
        have hreach2 := ReachesOffset.step start sz hreach hlt hr
        have hrec := ih (start + sz) hreach2 (by omega) (by omega)
        cases hp : parseIconsLoop body totalSize n (start + sz) with
        | none => exact absurd hp hrec
        | some r => cases r <;> simp [hp]
    · simp [parseIconsLoop, hlt]

theorem parse_loop_stuck (body : List Nat) (totalSize : Int) (s : Int)
    (hlt : s < totalSize)
    (hz : readInt32BE? body (s + 4) = some 0) :
    ∀ fuel, parseIconsLoop body totalSize fuel s = none := by
  intro fuel
  induction fuel with
  | zero => simp [parseIconsLoop, hlt]
  | succ n ih =>
    simp only [parseIconsLoop, if_pos hlt, hz]
    simp only [Int.add_zero, ih]

theorem parse_loop_stuck_step (body : List Nat) (totalSize : Int)
    (r sz : Int) (hlt : r < totalSize)
    (hr : readInt32BE? body (r + 4) = some sz)
    (hnext : ∀ fuel, parseIconsLoop body totalSize fuel (r + sz) = none) :
    ∀ fuel, parseIconsLoop body totalSize fuel r = none := by
  intro fuel
  cases fuel with
  | zero => simp [parseIconsLoop, hlt]
  | succ n =>
    simp only [parseIconsLoop, if_pos hlt, hr, hnext n]

theorem parse_loop_stuck_prop (body : List Nat) (totalSize : Int) :
    ∀ s : Int, ReachesOffset body totalSize s →
      (∀ fuel, parseIconsLoop body totalSize fuel s = none) →
      ∀ fuel, parseIconsLoop body totalSize fuel 0 = none := by
  intro s hreach
  induction hreach with
  | origin => intro h; exact h
  | step r sz hre hlt hr ih =>
    intro h
    exact ih (parse_loop_stuck_step body totalSize r sz hlt hr h)

/-- C9: the entry loop of `readIcnsAsImageUri`, started at offset 0 as in
the source, terminates whenever every parsed entry declares a length of at
least 1 — that is, whenever every length read at a visited offset below
the declared total is at least 1 (any fuel of at least `totalSize.toNat`
suffices, finishing normally or by an out-of-range throw); and if some
visited offset below the total reads a declared length of 0, the loop
never terminates (no amount of fuel completes it: the offset never
advances past that entry). -/
theorem icns_parse_termination :
    ∀ (body : List Nat) (totalSize : Int),
      ((∀ s sz : Int, ReachesOffset body totalSize s → s < totalSize →
          readInt32BE? body (s + 4) = some sz → 1 ≤ sz) →
        ∀ fuel : Nat, totalSize.toNat ≤ fuel →
          parseIconsLoop body totalSize fuel 0 ≠ none) ∧
      (∀ s : Int, ReachesOffset body totalSize s → s < totalSize →
        readInt32BE? body (s + 4) = some 0 →
        ∀ fuel, parseIconsLoop body totalSize fuel 0 = none) :=
  fun body totalSize =>
    ⟨fun h fuel hf =>
      parse_loop_fuel_bound body totalSize h fuel 0 ReachesOffset.origin
        (by omega) (by omega),
     fun s hs hlt hz fuel =>
      parse_loop_stuck_prop body totalSize s hs
        (parse_loop_stuck body totalSize s hlt hz) fuel⟩

/-- Witness for C9: the scenario container body (one parsed entry of
declared length 36; the word at the unreached offset 18 reads 0, which is
allowed since that offset is never visited) terminates with fuel 36, and a
body whose first entry declares length 0 is stuck at every fuel. -/
theorem icns_parse_termination_witness :
    parseIconsLoop icnsScenarioBody 36 36 0 ≠ none ∧
    parseIconsLoop [9, 9, 9, 9, 0, 0, 0, 0] 1 7 0 = none :=
  ⟨(icns_parse_termination icnsScenarioBody 36).1
      (by
        have hre : ∀ s : Int, ReachesOffset icnsScenarioBody 36 s →
            s = 0 ∨ s = 36 := by
          intro s hs
          induction hs with
          | origin => exact Or.inl rfl
          | step r sz hr2 hlt hread ih =>
            rcases ih with h0 | h0
            · subst h0
              rw [show readInt32BE? icnsScenarioBody ((0 : Int) + 4) =
                some 36 from by decide] at hread
              injection hread with h2
              omega
            · omega
        intro s sz hs hlt hread
        rcases hre s hs with h0 | h0
        · subst h0
          rw [show readInt32BE? icnsScenarioBody ((0 : Int) + 4) =
            some 36 from by decide] at hread
          injection hread with h2
          omega
        · omega)
      36 (by decide),
   (icns_parse_termination [9, 9, 9, 9, 0, 0, 0, 0] 1).2
      0 ReachesOffset.origin (by decide) (by decide) 7⟩

theorem b64Index_b64Char : ∀ n : Nat, n < 64 → b64Index (b64Char n) = some n := by
  decide

theorem b64Char_ne_pad : ∀ n : Nat, n < 64 → ¬ (b64Char n = '=') := by
  decide

theorem base64_roundtrip_list :
    ∀ bs : List Nat, (∀ b ∈ bs, b < 256) →
      base64DecodeList (base64EncodeList bs) = some bs
  | [], _ => rfl
  | [a], h => by
    have ha : a < 256 := h a (by simp)
    simp only [base64EncodeList, base64DecodeList,
      b64Index_b64Char (a / 4) (by omega),
      b64Index_b64Char (a % 4 * 16) (by omega)]
    simp
    omega
  | [a, b], h => by
    have ha : a < 256 := h a (by simp)
    have hb : b < 256 := h b (by simp)
    have hne3 : ¬ (b64Char (b % 16 * 4) = '=') := b64Char_ne_pad _ (by omega)
    simp only [base64EncodeList, base64DecodeList,
      b64Index_b64Char (a / 4) (by omega),
      b64Index_b64Char (a % 4 * 16 + b / 16) (by omega),
      b64Index_b64Char (b % 16 * 4) (by omega)]
    simp [hne3]
    omega
  | a :: b :: c :: d :: rest, h => by
    have ha : a < 256 := h a (by simp)
    have hb : b < 256 := h b (by simp)
    have hc : c < 256 := h c (by simp)
    have ih := base64_roundtrip_list (d :: rest)
      (fun x hx => h x (List.mem_cons_of_mem a
        (List.mem_cons_of_mem b (List.mem_cons_of_mem c hx))))
    have hne3 : ¬ (b64Char (b % 16 * 4 + c / 64) = '=') :=
      b64Char_ne_pad _ (by omega)
    have hne4 : ¬ (b64Char (c % 64) = '=') := b64Char_ne_pad _ (by omega)
    simp only [base64EncodeList, base64DecodeList,
      b64Index_b64Char (a / 4) (by omega),
      b64Index_b64Char (a % 4 * 16 + b / 16) (by omega),
      b64Index_b64Char (b % 16 * 4 + c / 64) (by omega),
      b64Index_b64Char (c % 64) (by omega)]
    simp [hne3, hne4, ih]
    omega
  | [a, b, c], h => by
    have ha : a < 256 := h a (by simp)
    have hb : b < 256 := h b (by simp)
    have hc : c < 256 := h c (by simp)
    have hne3 : ¬ (b64Char (b % 16 * 4 + c / 64) = '=') :=
      b64Char_ne_pad _ (by omega)
    have hne4 : ¬ (b64Char (c % 64) = '=') := b64Char_ne_pad _ (by omega)
    simp only [base64EncodeList, base64DecodeList,
      b64Index_b64Char (a / 4) (by omega),
      b64Index_b64Char (a % 4 * 16 + b / 16) (by omega),
      b64Index_b64Char (b % 16 * 4 + c / 64) (by omega),
      b64Index_b64Char (c % 64) (by omega)]
    simp [hne3, hne4]
    omega

theorem mem_of_mem_jsSlice {b : Nat} {l : List Nat} {i j : Int}
    (h : b ∈ jsSlice l i j) : b ∈ l :=
  List.mem_of_mem_take (List.mem_of_mem_drop h)

theorem parseIconsLoop_data_mem (body : List Nat) (totalSize : Int) :
    ∀ (fuel : Nat) (start : Int) (icons : List IcnsEntry),
      parseIconsLoop body totalSize fuel start = some (.ok icons) →
      ∀ e ∈ icons, ∀ b ∈ e.data, b ∈ body := by
  intro fuel
  induction fuel with
  | zero =>
    intro start icons h
    by_cases hlt : start < totalSize
    · simp [parseIconsLoop, hlt] at h
    · simp only [parseIconsLoop, if_neg hlt] at h
      injection h with h2
      injection h2 with h3
      subst h3
      intro e he
      exact absurd he (List.not_mem_nil e)
  | succ n ih =>
    intro start icons h
    by_cases hlt : start < totalSize
    · simp only [parseIconsLoop, if_pos hlt] at h
      split at h
      · simp at h
      · split at h
        · simp at h
        · simp at h
        · rename_i rest hp
          simp only [Option.some.injEq, Except.ok.injEq] at h
          intro e he b hb
          rw [← h] at he
          rcases List.mem_cons.mp he with h1 | h1
          · rw [h1] at hb
            exact mem_of_mem_jsSlice hb
          · exact ih _ rest hp e h1 b hb
    · simp only [parseIconsLoop, if_neg hlt] at h
      injection h with h2
      injection h2 with h3
      subst h3
      intro e he
      exact absurd he (List.not_mem_nil e)

theorem mem_insertBySizeDesc {y e : IcnsEntry} :
    ∀ {l : List IcnsEntry}, y ∈ insertBySizeDesc e l → y = e ∨ y ∈ l := by
  intro l
  induction l with
  | nil => intro h; simp [insertBySizeDesc] at h; simp [h]
  | cons x xs ih =>
    intro h
    simp only [insertBySizeDesc] at h
    by_cases hc : x.size ≤ e.size
    · rw [if_pos hc] at h
      rcases List.mem_cons.mp h with h1 | h1
      · simp [h1]
      · simp [h1]
    · rw [if_neg hc] at h
      rcases List.mem_cons.mp h with h1 | h1
      · simp [h1]
      · rcases ih h1 with h2 | h2
        · simp [h2]
        · simp [h2]

theorem mem_sortBySizeDesc {y : IcnsEntry} :
    ∀ {l : List IcnsEntry}, y ∈ sortBySizeDesc l → y ∈ l := by
  intro l
  induction l with
  | nil => intro h; simp [sortBySizeDesc] at h
  | cons x xs ih =>
    intro h
    rcases mem_insertBySizeDesc h with h1 | h1
    · simp [h1]
    · simp [ih h1]

theorem selectIcon_mem {icons : List IcnsEntry} {e : IcnsEntry}
    (h : selectIcon icons = some e) : e ∈ icons := by
  unfold selectIcon at h
  cases hs : sortBySizeDesc icons with
  | nil => rw [hs] at h; cases h
  | cons a t =>
    rw [hs] at h
    have : a = e := by simpa using h
    apply mem_sortBySizeDesc
    rw [hs, this]
    exact List.mem_cons_self e t

/-- C2: whenever the selected entry has payload bytes 1..3 equal to the
UTF-8 of `PNG`, `readIcnsAsImageUri` returns the literal
`data:image/png;base64,` followed by the base64 encoding of the payload,
and base64-decoding that suffix recovers the payload exactly (the bound
`b < 256` states that the input is a byte buffer). -/
theorem icns_png_roundtrip :
    ∀ (buf : List Nat) (fuel : Nat) (icons : List IcnsEntry) (e : IcnsEntry),
      parseIcns buf fuel = some (.ok icons) →
      selectIcon icons = some e →
      jsSlice e.data 1 4 = pngBytes →
      (∀ b ∈ buf, b < 256) →
      readIcnsAsImageUri buf fuel =
        some (.ok (pngDataUriHead ++ base64Encode e.data)) ∧
      base64Decode (base64Encode e.data) = some e.data := by
  intro buf fuel icons e hp hsel hpng hbytes
  refine ⟨?_, ?_⟩
  · simp only [readIcnsAsImageUri, hp, hsel, if_pos hpng]
  · have hdata : ∀ b ∈ e.data, b < 256 := by
      intro b hb
      have he : e ∈ icons := selectIcon_mem hsel
      have hbody : b ∈ buf.drop 8 := by
        simp only [parseIcns] at hp
        cases hr : readInt32BE? buf 4 with
        | none => rw [hr] at hp; simp at hp
        | some n =>
          rw [hr] at hp
          exact parseIconsLoop_data_mem (buf.drop 8) (n - 8) fuel 0 icons hp
            e he b hb
      exact hbytes b (List.mem_of_mem_drop hbody)
    exact base64_roundtrip_list e.data hdata

/-- Witness for C2: the 44-byte container of the end-to-end scenario, with
one 36-byte entry whose payload carries the PNG signature at bytes
1..3. -/
theorem icns_png_roundtrip_witness :
    readIcnsAsImageUri
      [105, 99, 110, 115, 0, 0, 0, 44, 105, 99, 48, 56, 0, 0, 0, 36,
       137, 80, 78, 71, 13, 10, 26, 10, 0, 0, 0, 0, 0, 0, 0, 0, 0, 0,
       0, 0, 0, 0, 0, 0, 0, 0, 0, 0] 1 =
      some (.ok (pngDataUriHead ++ base64Encode
        [137, 80, 78, 71, 13, 10, 26, 10, 0, 0, 0, 0, 0, 0, 0, 0, 0, 0,
         0, 0, 0, 0, 0, 0, 0, 0, 0, 0])) ∧
    base64Decode (base64Encode
      [137, 80, 78, 71, 13, 10, 26, 10, 0, 0, 0, 0, 0, 0, 0, 0, 0, 0,
       0, 0, 0, 0, 0, 0, 0, 0, 0, 0]) =
      some [137, 80, 78, 71, 13, 10, 26, 10, 0, 0, 0, 0, 0, 0, 0, 0, 0, 0,
        0, 0, 0, 0, 0, 0, 0, 0, 0, 0] :=
  icns_png_roundtrip
    [105, 99, 110, 115, 0, 0, 0, 44, 105, 99, 48, 56, 0, 0, 0, 36,
     137, 80, 78, 71, 13, 10, 26, 10, 0, 0, 0, 0, 0, 0, 0, 0, 0, 0,
     0, 0, 0, 0, 0, 0, 0, 0, 0, 0] 1
    [IcnsEntry.mk [105, 99, 48, 56] 36
      [137, 80, 78, 71, 13, 10, 26, 10, 0, 0, 0, 0, 0, 0, 0, 0, 0, 0,
       0, 0, 0, 0, 0, 0, 0, 0, 0, 0]]
    (IcnsEntry.mk [105, 99, 48, 56] 36
      [137, 80, 78, 71, 13, 10, 26, 10, 0, 0, 0, 0, 0, 0, 0, 0, 0, 0,
       0, 0, 0, 0, 0, 0, 0, 0, 0, 0])
    rfl rfl rfl (by decide)

/-- C3: on any input whose parsed entry list is empty, the extractor fails
with the definite `noIconEntries` error (the deterministic `TypeError`
raised at `icons[0].data`, which the spec names `NoIconEntries` /
`NoIconFound`) and in particular returns no string, empty or otherwise. -/
theorem icns_empty_entries_error :
    ∀ (buf : List Nat) (fuel : Nat),
      parseIcns buf fuel = some (.ok []) →
      readIcnsAsImageUri buf fuel = some (.error .noIconEntries) ∧
      ∀ s : String, readIcnsAsImageUri buf fuel ≠ some (.ok s) := by
  intro buf fuel h
  have h1 : readIcnsAsImageUri buf fuel = some (.error .noIconEntries) := by
    simp only [readIcnsAsImageUri, h]
    rfl
  refine ⟨h1, ?_⟩
  intro s hs
  rw [h1] at hs
  exact Except.noConfusion (Option.some.inj hs)

/-- Witness for C3: an 8-byte container whose declared total length 8
leaves no entry bytes, so the parsed entry list is empty. -/
theorem icns_empty_entries_error_witness :
    readIcnsAsImageUri [105, 99, 110, 115, 0, 0, 0, 8] 3 =
      some (.error .noIconEntries) :=
  (icns_empty_entries_error [105, 99, 110, 115, 0, 0, 0, 8] 3 rfl).1

theorem head_filter_decomp {p : String → Bool} :
    ∀ (l : List String) (e : String), (l.filter p).head? = some e →
      ∃ l1 l2, l = l1 ++ e :: l2 ∧ p e = true ∧ ∀ f ∈ l1, p f = false := by
  intro l
  induction l with
  | nil => intro e h; simp at h
  | cons x xs ih =>
    intro e h
    by_cases hx : p x
    · rw [List.filter_cons_of_pos hx] at h
      have hxe : x = e := by simpa using h
      subst hxe
      exact ⟨[], xs, rfl, hx, by simp⟩
    · rw [List.filter_cons_of_neg hx] at h
      obtain ⟨l1, l2, hdec, hpe, hall⟩ := ih e h
      refine ⟨x :: l1, l2, by simp [hdec], hpe, ?_⟩
      intro f hf
      rcases List.mem_cons.mp hf with h1 | h1
      · rw [h1]
        exact Bool.eq_false_iff.mpr hx
      · exact hall f h1

/-- C6: on win32, for a candidate directory passing the packaging check,
if some file is excluded by keyword and some file is a non-excluded `.exe`,
`getAppInfo` builds its descriptor from the first non-excluded `.exe` in
directory order; if no file passes the filter, it returns no
descriptor. -/
theorem win32_exe_selection :
    ∀ (fs : FSModel) (appPath freshId : String) (fuel : Nat)
      (files : List String),
      fs.readdir appPath = some files →
      isElectronBasedWin fs appPath files = true →
      ((∃ u ∈ files, excludedKeyword u = true) →
       (∃ c ∈ files, isExeCandidate c = true) →
       ∃ l1 e l2, files = l1 ++ e :: l2 ∧ isExeCandidate e = true ∧
         (∀ f ∈ l1, isExeCandidate f = false) ∧
         getAppInfo "win32" fs appPath freshId fuel =
           some (.ok (some (AppInfoModel.mk freshId (basenameExe e) ""
             appPath (pathJoin appPath e))))) ∧
      ((∀ f ∈ files, isExeCandidate f = false) →
       getAppInfo "win32" fs appPath freshId fuel = some (.ok none)) := by
  intro fs appPath freshId fuel files hdir helectron
  constructor
  · intro _ hex
    obtain ⟨c, hcmem, hcand⟩ := hex
    cases hh : (files.filter isExeCandidate).head? with
    | none =>
      rw [List.head?_eq_none_iff] at hh
      have := List.filter_eq_nil_iff.mp hh c hcmem
      simp [hcand] at this
    | some e =>
      obtain ⟨l1, l2, hdec, hpe, hall⟩ := head_filter_decomp files e hh
      refine ⟨l1, e, l2, hdec, hpe, hall, ?_⟩
      simp [getAppInfo, hdir, helectron, hh]
  · intro hall
    have hfil : files.filter isExeCandidate = [] :=
      List.filter_eq_nil_iff.mpr (fun f hf => by simp [hall f hf])
    simp [getAppInfo, hdir, helectron, hfil]

/-- Witness for C6: a directory with an excluded `Update.exe` and a
non-excluded `foo.exe`; the descriptor is built from `foo.exe`, which
comes second in directory order. -/
theorem win32_exe_selection_witness :
    ∃ l1 e l2,
      ["Update.exe", "foo.exe"] = l1 ++ e :: l2 ∧ isExeCandidate e = true ∧
      (∀ f ∈ l1, isExeCandidate f = false) ∧
      getAppInfo "win32"
        (FSModel.mk
          (fun p => if p = "C:/Apps/Foo" then
              some ["Update.exe", "foo.exe"] else none)
          (fun _ => true) (fun _ => none) (fun _ => none))
        "C:/Apps/Foo" "id0" 0 =
        some (.ok (some (AppInfoModel.mk "id0" (basenameExe e) ""
          "C:/Apps/Foo" (pathJoin "C:/Apps/Foo" e)))) :=
  (win32_exe_selection
    (FSModel.mk
      (fun p => if p = "C:/Apps/Foo" then
          some ["Update.exe", "foo.exe"] else none)
      (fun _ => true) (fun _ => none) (fun _ => none))
    "C:/Apps/Foo" "id0" 0 ["Update.exe", "foo.exe"] rfl rfl).1
    ⟨"Update.exe", by simp, by decide⟩ ⟨"foo.exe", by simp, by decide⟩

/-- C10: the `.exe` suffix test of the win32 branch is case-sensitive (a
directory whose files none end in lowercase `.exe`, for example only
`.EXE` names, yields no descriptor), while the keyword exclusion is
case-insensitive (an upper-case `UNINSTALL.EXE` is still excluded). -/
theorem win32_exe_suffix_case_sensitive :
    (∀ (fs : FSModel) (appPath freshId : String) (fuel : Nat)
       (files : List String),
       fs.readdir appPath = some files →
       (∀ f ∈ files, endsWithChars f.data exeSuffixChars = false) →
       getAppInfo "win32" fs appPath freshId fuel = some (.ok none)) ∧
    endsWithChars "Setup.EXE".data exeSuffixChars = false ∧
    excludedKeyword "UNINSTALL.EXE" = true := by
  refine ⟨?_, by decide, by decide⟩
  intro fs appPath freshId fuel files hdir hnoexe
  have hfil : files.filter isExeCandidate = [] :=
    List.filter_eq_nil_iff.mpr
      (fun f hf => by simp [isExeCandidate, hnoexe f hf])
  by_cases he : isElectronBasedWin fs appPath files = false
  · simp [getAppInfo, hdir, he]
  · simp only [Bool.not_eq_false] at he
    simp [getAppInfo, hdir, he, hfil]

/-- Witness for C10: a directory holding only `Setup.EXE` yields no
descriptor. -/
theorem win32_exe_suffix_case_sensitive_witness :
    getAppInfo "win32"
      (FSModel.mk
        (fun p => if p = "C:/Apps/Bar" then some ["Setup.EXE"] else none)
        (fun _ => true) (fun _ => none) (fun _ => none))
      "C:/Apps/Bar" "id1" 0 = some (.ok none) :=
  win32_exe_suffix_case_sensitive.1
    (FSModel.mk
      (fun p => if p = "C:/Apps/Bar" then some ["Setup.EXE"] else none)
      (fun _ => true) (fun _ => none) (fun _ => none))
    "C:/Apps/Bar" "id1" 0 ["Setup.EXE"] rfl (by decide)

/-- C7: on a platform other than win32 and darwin, discovery returns the
empty mapping without raising (the candidate set is empty, so the loop
never calls the metadata reader), while a direct `getAppInfo` call throws
the unsupported-platform error. -/
theorem discovery_empty_on_unsupported :
    ∀ (platform : String) (fs : FSModel) (homedir : String)
      (idGen : Nat → String) (fuel : Nat) (appPath freshId : String),
      ¬ platform = "win32" → ¬ platform = "darwin" →
      getElectronApps platform fs homedir idGen fuel = some (.ok []) ∧
      getAppInfo platform fs appPath freshId fuel =
        some (.error (.unsupportedPlatform platform)) := by
  intro platform fs homedir idGen fuel appPath freshId h1 h2
  constructor
  · have hpaths : getPossibleAppPaths platform fs homedir = [] := by
      simp [getPossibleAppPaths, h1, h2]
    simp [getElectronApps, hpaths, getElectronAppsLoop]
  · simp [getAppInfo, h1, h2]

/-- Witness for C7 at the concrete platform string `linux`. -/
theorem discovery_empty_on_unsupported_witness :
    getElectronApps "linux"
      (FSModel.mk (fun _ => none) (fun _ => false) (fun _ => none)
        (fun _ => none))
      "/home/u" (fun _ => "id") 0 = some (.ok []) ∧
    getAppInfo "linux"
      (FSModel.mk (fun _ => none) (fun _ => false) (fun _ => none)
        (fun _ => none))
      "/opt/app" "fid" 0 =
      some (.error (.unsupportedPlatform "linux")) :=
  discovery_empty_on_unsupported "linux"
    (FSModel.mk (fun _ => none) (fun _ => false) (fun _ => none)
      (fun _ => none))
    "/home/u" (fun _ => "id") 0 "/opt/app" "fid" (by decide) (by decide)

/-- Does a `getAppInfo` result deliver a descriptor? -/
def returnsDescriptor (r : Option (Except JsError (Option AppInfoModel))) :
    Bool :=
  match r with
  | some (.ok (some _)) => true
  | _ => false

/-- A darwin bundle whose framework marker is present and whose plist
carries exactly the four scenario fields, but whose icon file read fails
(`readBytes` is `none` everywhere). -/
def acmeBrokenFS : FSModel :=
  FSModel.mk (fun _ => none) (fun _ => true)
    (fun p => if p = "/Applications/Acme.app/Contents/Info.plist" then
        some (PlistInfo.mk "com.acme.app" "Acme" "Acme" "icon.icns")
      else none)
    (fun _ => none)

/-- Counterexample to C8 as stated: a bundle that passes the framework
check and whose plist holds exactly the four scenario fields, yet
`getAppInfo` returns no descriptor, because the icon file read rejects and
the darwin branch catches nothing. -/
theorem darwin_descriptor_counterexample :
    acmeBrokenFS.pathExists (pathJoin "/Applications/Acme.app"
      "Contents/Frameworks/Electron Framework.framework") = true ∧
    acmeBrokenFS.readPlist (pathJoin "/Applications/Acme.app"
      "Contents/Info.plist") =
      some (PlistInfo.mk "com.acme.app" "Acme" "Acme" "icon.icns") ∧
    getAppInfo "darwin" acmeBrokenFS "/Applications/Acme.app" "fid" 5 =
      some (.error .fileError) ∧
    returnsDescriptor
      (getAppInfo "darwin" acmeBrokenFS "/Applications/Acme.app" "fid" 5) =
      false := by
  refine ⟨rfl, by decide, rfl, rfl⟩

/-- C8 (amended): for a darwin bundle passing the framework check whose
plist holds the four scenario fields, and whose icon extraction completes
with a value, `getAppInfo` returns the scenario descriptor (id from the
bundle identifier, name from the display name, install path the bundle
path, executable path `Contents/MacOS/Acme` under the bundle). -/
theorem darwin_descriptor :
    ∀ (fs : FSModel) (appPath freshId : String) (fuel : Nat) (icon : String),
      fs.pathExists (pathJoin appPath
        "Contents/Frameworks/Electron Framework.framework") = true →
      fs.readPlist (pathJoin appPath "Contents/Info.plist") =
        some (PlistInfo.mk "com.acme.app" "Acme" "Acme" "icon.icns") →
      readIcnsAsImageUriFS fs
        (pathJoin (pathJoin (pathJoin appPath "Contents") "Resources")
          "icon.icns") fuel = some (.ok icon) →
      getAppInfo "darwin" fs appPath freshId fuel =
        some (.ok (some (AppInfoModel.mk "com.acme.app" "Acme" icon appPath
          (pathJoin (pathJoin appPath "Contents/MacOS") "Acme")))) := by
  intro fs appPath freshId fuel icon hmarker hplist hicon
  simp [getAppInfo, hmarker, hplist, hicon]

/-- A darwin bundle with marker, scenario plist, and a decodable (non-PNG)
17-byte icon container. -/
def acmeFS : FSModel :=
  FSModel.mk (fun _ => none) (fun _ => true)
    (fun p => if p = "/Applications/Acme.app/Contents/Info.plist" then
        some (PlistInfo.mk "com.acme.app" "Acme" "Acme" "icon.icns")
      else none)
    (fun p => if p = "/Applications/Acme.app/Contents/Resources/icon.icns"
      then some [0, 0, 0, 0, 0, 0, 0, 17, 0, 0, 0, 0, 0, 0, 0, 9, 0]
      else none)

/-- Witness for the amended C8 on the concrete bundle `acmeFS` (icon
extraction completes with the empty string, as the payload is not
PNG-tagged). -/
theorem darwin_descriptor_witness :
    getAppInfo "darwin" acmeFS "/Applications/Acme.app" "fid" 2 =
      some (.ok (some (AppInfoModel.mk "com.acme.app" "Acme" ""
        "/Applications/Acme.app"
        (pathJoin (pathJoin "/Applications/Acme.app" "Contents/MacOS")
          "Acme")))) :=
  darwin_descriptor acmeFS "/Applications/Acme.app" "fid" 2 "" rfl
    (by decide) rfl

theorem lookupInst_mapUpdate (st : InstanceState) (id : String)
    (f : InstanceInfo → InstanceInfo) :
    lookupInst (st.map (fun q => if q.1 = id then (q.1, f q.2) else q)) id =
      (lookupInst st id).map f := by
  induction st with
  | nil => rfl
  | cons hd tl ih =>
    obtain ⟨k, v⟩ := hd
    simp only [List.map_cons]
    by_cases h : k = id
    · subst h
      rw [show (if (k, v).1 = k then ((k, v).1, f (k, v).2) else (k, v)) =
        (k, f v) from by simp]
      simp [lookupInst]
    · rw [show (if (k, v).1 = id then ((k, v).1, f (k, v).2) else (k, v)) =
        (k, v) from by simp [h]]
      simp [lookupInst, h, ih]

theorem lookupInst_filterRemove (st : InstanceState) (id : String) :
    lookupInst (st.filter (fun q => !(q.1 = id))) id = none := by
  induction st with
  | nil => rfl
  | cons hd tl ih =>
    obtain ⟨k, v⟩ := hd
    by_cases h : k = id
    · simp [List.filter_cons, h, ih]
    · simp [List.filter_cons, h, lookupInst, ih]

theorem lookup_after_node (st : InstanceState) (id p : String) :
    lookupInst (applyAction st (.updateNodePort id p)) id =
      (lookupInst st id).map
        (fun v => InstanceInfo.mk v.appId (some p) v.windowPort v.log) :=
  lookupInst_mapUpdate st id
    (fun v => InstanceInfo.mk v.appId (some p) v.windowPort v.log)

theorem lookup_after_window (st : InstanceState) (id p : String) :
    lookupInst (applyAction st (.updateWindowPort id p)) id =
      (lookupInst st id).map
        (fun v => InstanceInfo.mk v.appId v.nodePort (some p) v.log) :=
  lookupInst_mapUpdate st id
    (fun v => InstanceInfo.mk v.appId v.nodePort (some p) v.log)

theorem lookup_after_log (st : InstanceState) (id chunk : String) :
    lookupInst (applyAction st (.updateLog id chunk)) id =
      (lookupInst st id).map
        (fun v => InstanceInfo.mk v.appId v.nodePort v.windowPort
          (v.log ++ chunk)) :=
  lookupInst_mapUpdate st id
    (fun v => InstanceInfo.mk v.appId v.nodePort v.windowPort
      (v.log ++ chunk))

theorem handleStdout_lookup (isErr : Bool) (st : InstanceState)
    (id chunk : String) (inst : InstanceInfo)
    (h : lookupInst st id = some inst) :
    lookupInst (handleStdout isErr st id chunk) id =
      some (InstanceInfo.mk inst.appId
        (if inst.nodePort = none then
          execPortRegex nodePortPattern chunk.data else inst.nodePort)
        (if inst.windowPort = none then
          execPortRegex windowPortPattern chunk.data else inst.windowPort)
        (inst.log ++ chunk)) := by
  unfold handleStdout
  rw [h]
  by_cases hn : inst.nodePort = none <;>
    by_cases hw : inst.windowPort = none <;>
      cases hrn : execPortRegex nodePortPattern chunk.data <;>
        cases hrw : execPortRegex windowPortPattern chunk.data <;>
          simp [hn, hw, hrn, hrw, lookup_after_node, lookup_after_window,
            lookup_after_log, h]

theorem nodePort_preserved :
    ∀ (chunks : List (Bool × String)) (st : InstanceState) (id p : String)
      (inst : InstanceInfo),
      lookupInst st id = some inst → inst.nodePort = some p →
      ∃ inst2,
        lookupInst (chunks.foldl (fun s c => handleStdout c.1 s id c.2) st)
          id = some inst2 ∧ inst2.nodePort = some p := by
  intro chunks
  induction chunks with
  | nil => intro st id p inst h hp; exact ⟨inst, h, hp⟩
  | cons c cs ih =>
    intro st id p inst h hp
    have h1 := handleStdout_lookup c.1 st id c.2 inst h
    refine ih (handleStdout c.1 st id c.2) id p _ h1 ?_
    simp [hp]

theorem windowPort_preserved :
    ∀ (chunks : List (Bool × String)) (st : InstanceState) (id p : String)
      (inst : InstanceInfo),
      lookupInst st id = some inst → inst.windowPort = some p →
      ∃ inst2,
        lookupInst (chunks.foldl (fun s c => handleStdout c.1 s id c.2) st)
          id = some inst2 ∧ inst2.windowPort = some p := by
  intro chunks
  induction chunks with
  | nil => intro st id p inst h hp; exact ⟨inst, h, hp⟩
  | cons c cs ih =>
    intro st id p inst h hp
    have h1 := handleStdout_lookup c.1 st id c.2 inst h
    refine ih (handleStdout c.1 st id c.2) id p _ h1 ?_
    simp [hp]

/-- C5: once a port field of an instance is set, no later chunk handled by
the stream callback overwrites or clears it — stated for both `nodePort`
and `windowPort` over an arbitrary sequence of subsequent chunks — and
port capture is idempotent for both ports: feeding the same matching chunk
twice leaves the port at the value captured from the first match. -/
theorem ports_first_writer_wins :
    ∀ (st : InstanceState) (id : String) (inst : InstanceInfo)
      (chunk : String) (isErr : Bool) (p : String),
      lookupInst st id = some inst →
      (inst.nodePort = some p →
        ∀ chunks : List (Bool × String),
          ∃ inst2,
            lookupInst (chunks.foldl (fun s c => handleStdout c.1 s id c.2)
              (handleStdout isErr st id chunk)) id = some inst2 ∧
            inst2.nodePort = some p) ∧
      (inst.windowPort = some p →
        ∀ chunks : List (Bool × String),
          ∃ inst2,
            lookupInst (chunks.foldl (fun s c => handleStdout c.1 s id c.2)
              (handleStdout isErr st id chunk)) id = some inst2 ∧
            inst2.windowPort = some p) ∧
      (inst.nodePort = none →
        execPortRegex nodePortPattern chunk.data = some p →
        ∃ inst2,
          lookupInst (handleStdout isErr (handleStdout isErr st id chunk) id
            chunk) id = some inst2 ∧
          inst2.nodePort = some p) ∧
      (inst.windowPort = none →
        execPortRegex windowPortPattern chunk.data = some p →
        ∃ inst2,
          lookupInst (handleStdout isErr (handleStdout isErr st id chunk) id
            chunk) id = some inst2 ∧
          inst2.windowPort = some p) := by
  intro st id inst chunk isErr p h
  refine ⟨?_, ?_, ?_, ?_⟩
  · intro hp chunks
    have h1 := handleStdout_lookup isErr st id chunk inst h
    exact nodePort_preserved chunks (handleStdout isErr st id chunk) id p _
      h1 (by simp [hp])
  · intro hp chunks
    have h1 := handleStdout_lookup isErr st id chunk inst h
    exact windowPort_preserved chunks (handleStdout isErr st id chunk) id p _
      h1 (by simp [hp])
  · intro hn hr
    have h1 := handleStdout_lookup isErr st id chunk inst h
    have h2 := handleStdout_lookup isErr (handleStdout isErr st id chunk) id
      chunk _ h1
    refine ⟨_, h2, ?_⟩
    simp [hn, hr]
  · intro hw hr
    have h1 := handleStdout_lookup isErr st id chunk inst h
    have h2 := handleStdout_lookup isErr (handleStdout isErr st id chunk) id
      chunk _ h1
    refine ⟨_, h2, ?_⟩
    simp [hw, hr]

/-- Witness for C5: an instance with unset ports fed the same matching
chunk twice (once for the node-inspector pattern, once for the devtools
pattern) holds, in each port field, the value captured from the first
match. -/
theorem ports_first_writer_wins_witness :
    (∃ inst2,
      lookupInst (handleStdout false
        (handleStdout false [("i", InstanceInfo.mk "a" none none "")] "i"
          "Debugger listening on ws://127.0.0.1:2222/ws") "i"
        "Debugger listening on ws://127.0.0.1:2222/ws") "i" = some inst2 ∧
      inst2.nodePort = some "2222") ∧
    (∃ inst2,
      lookupInst (handleStdout false
        (handleStdout false [("i", InstanceInfo.mk "a" none none "")] "i"
          "DevTools listening on ws://127.0.0.1:3333/ws") "i"
        "DevTools listening on ws://127.0.0.1:3333/ws") "i" = some inst2 ∧
      inst2.windowPort = some "3333") :=
  ⟨((ports_first_writer_wins [("i", InstanceInfo.mk "a" none none "")] "i"
      (InstanceInfo.mk "a" none none "")
      "Debugger listening on ws://127.0.0.1:2222/ws" false "2222"
      rfl).2.2.1) rfl rfl,
   ((ports_first_writer_wins [("i", InstanceInfo.mk "a" none none "")] "i"
      (InstanceInfo.mk "a" none none "")
      "DevTools listening on ws://127.0.0.1:3333/ws" false "3333"
      rfl).2.2.2) rfl rfl⟩

/-- Counterexample to C4 as stated: a spawn-level error event does not
remove the instance from the registry (the error listener body is empty),
so immediately after `addInstance` and an `error` event the entry is still
present. -/
theorem spawn_error_no_removal_counterexample :
    lookupInst (handleSpawnEvent (startDebugging [] "i1" "appA") "i1"
      .errorEvent) "i1" = some (InstanceInfo.mk "appA" none none "") := rfl

/-- C4 (amended): a `close` event (any exit code) removes the instance
from the registry; a spawn-level `error` event leaves the whole registry
unchanged (the documented gap); and once the instance is absent, no
further event re-creates or mutates it. -/
theorem instance_removed_on_close :
    ∀ (st : InstanceState) (id : String) (code : Int) (e : SpawnEvent),
      lookupInst (handleSpawnEvent st id (.close code)) id = none ∧
      handleSpawnEvent st id .errorEvent = st ∧
      (lookupInst st id = none →
        lookupInst (handleSpawnEvent st id e) id = none) := by
  intro st id code e
  refine ⟨lookupInst_filterRemove st id, rfl, ?_⟩
  intro h
  cases e with
  | stdoutData c => simp [handleSpawnEvent, handleStdout, h]
  | stderrData c => simp [handleSpawnEvent, handleStdout, h]
  | close c2 => exact lookupInst_filterRemove st id
  | errorEvent => exact h

/-- Witness for C4 (amended) on the empty registry and a concrete stdout
event after removal. -/
theorem instance_removed_on_close_witness :
    lookupInst (handleSpawnEvent [] "j" (.close 0)) "j" = none ∧
    handleSpawnEvent ([] : InstanceState) "j" .errorEvent = [] ∧
    lookupInst (handleSpawnEvent [] "j" (.stdoutData "hello")) "j" = none :=
  have h := instance_removed_on_close [] "j" 0 (.stdoutData "hello")
  ⟨h.1, h.2.1, h.2.2 rfl⟩
